import Mathlib

/-!
Shallow embedding of the slug-generation routine (src/utils/slug.js), the
cascading-delete controllers (post.controller.js `deletepost`,
visitor.controller.js `deleteUser`) and the Cloudinary asset-deletion wrapper
(`extractPublicId`, `deleteFromCloudinary`) of the bipaderbondhu backend,
with proofs of the specified properties.

JavaScript strings are modelled as Lean `String`.  Asynchronous calls to the
database and to the asset service are modelled by explicit state passing: the
Mongo collections become lists in a `Store` record, and the asset service
becomes a function from the attempt number to an exception-or-result value.
An empty string stands for a falsy JavaScript string field.
-/

/-- Decimal digits of `n`, least significant first, computed with fuel
(`fuel = n` is always enough).  This is the digit sequence underlying the
decimal rendering performed by the JavaScript template literal. -/
def decDigitsAux : Nat → Nat → List Nat
  | 0, _ => []
  | _ + 1, 0 => []
  | fuel + 1, n + 1 => (n + 1) % 10 :: decDigitsAux fuel ((n + 1) / 10)

/-- Decimal representation of a natural number, as produced by interpolating a
JavaScript number into a template literal. -/
def decRepr (n : Nat) : String :=
  if n = 0 then "0" else ((decDigitsAux n n).reverse.map Nat.digitChar).asString

/-- Decimal decoder; a left inverse of `decRepr`, used to prove injectivity. -/
def decVal (s : String) : Nat :=
  s.toList.foldl (fun acc c => acc * 10 + (c.toNat - 48)) 0

/-- JS `String.prototype.trim()` at the character-list level. -/
def jsTrim (s : String) : String :=
  ((s.toList.dropWhile Char.isWhitespace).reverse.dropWhile Char.isWhitespace).reverse.asString

/-- Replace each maximal run of whitespace by a single hyphen: the effect of
the JavaScript `replace(/\s+/g, '-')`.  The flag records whether the previous
character was part of a whitespace run already replaced. -/
def collapseWsAux : Bool → List Char → List Char
  | _, [] => []
  | inWs, c :: cs =>
    if c.isWhitespace then
      if inWs then collapseWsAux true cs else '-' :: collapseWsAux true cs
    else c :: collapseWsAux false cs

def collapseWs (s : String) : String := (collapseWsAux false s.toList).asString

/-- Characters removed by the raw-title fallback of `generateSlug`:
the JavaScript `replace(/[\/\\?#%]/g, '')` (slug.js line 40). -/
def isUrlIllegal (c : Char) : Bool :=
  c == '/' || c == '\\' || c == '?' || c == '#' || c == '%'

/-- Characters kept by the npm `slugify` removal regular expression
`[^\w\s$*_+~.()'"!\-:@]`. -/
def slugifyKeep (c : Char) : Bool :=
  c.isAlphanum || c == '_' || c.isWhitespace || c == '$' || c == '*' || c == '+' ||
    c == '~' || c == '.' || c == '(' || c == ')' || c == '\'' || c == '"' ||
    c == '!' || c == '-' || c == ':' || c == '@'

/-- Modelled from the spec: the external npm `slugify` library (not part of
this repository), called as `slugify(title, { lower: false, trim: true,
strict: false })` at slug.js lines 29-33; the spec describes it as a
locale-unaware normalization that does not force-fold to ASCII and may yield
an empty result on non-Latin input.  Following the library's documented
algorithm on characters outside its transliteration table (which covers
neither ASCII nor Bengali), each hyphen becomes a space, characters not
matching `[\w\s$*_+~.()'"!\-:@]` are removed, the result is trimmed, and each
whitespace run is replaced by the hyphen separator; `lower: false` leaves
letter case unchanged. -/
def slugify (title : String) : String :=
  collapseWs (jsTrim
    (((title.toList.map (fun c => if c == '-' then ' ' else c)).filter slugifyKeep).asString))

/-- The raw-title fallback of `generateSlug` (slug.js lines 36-41):
`title.trim().replace(/\s+/g, '-').replace(/[\/\\?#%]/g, '')`. -/
def rawFallback (title : String) : String :=
  ((collapseWs (jsTrim title)).toList.filter (fun c => !isUrlIllegal c)).asString

/-- The base slug chosen by `generateSlug` before the uniqueness loop
(slug.js lines 29-46): the slugified title, else the raw-title fallback,
else the time-derived token `post-<epoch-millis>`. -/
def baseSlugOf (norm : String → String) (title : String) (now : Nat) : String :=
  let b1 := norm title
  let b2 := if b1 == "" || jsTrim b1 == "" then rawFallback title else b1
  if b2 == "" || jsTrim b2 == "" then "post-" ++ decRepr now else b2

/-- Candidate slugs tried by the disambiguation loop of `generateSlug`, in
order: the base slug itself, then `base-1`, `base-2`, … -/
def candidate (base : String) : Nat → String
  | 0 => base
  | k + 1 => base ++ "-" ++ decRepr (k + 1)

/-- The uniqueness loop of `generateSlug` (slug.js lines 48-55), with fuel;
`i` is the index of the next candidate to check. -/
def slugLoopAux (store : List String) (base : String) : Nat → Nat → String
  | 0, i => candidate base i
  | fuel + 1, i =>
    if candidate base i ∈ store then slugLoopAux store base fuel (i + 1)
    else candidate base i

/-- The uniqueness loop of `generateSlug`, run with enough fuel: starting from
the base candidate, try `base`, `base-1`, `base-2`, … and return the first
candidate absent from the uniqueness store. -/
def slugLoop (store : List String) (base : String) : String :=
  slugLoopAux store base (store.length + 1) 0

/-- The slug generator of slug.js (lines 27-58) with the text normalizer as an
explicit collaborator; the store is the list of slugs present in the Post
collection, and `now` is the epoch-millisecond clock reading used by the
last-resort fallback. -/
def generateSlugWith (norm : String → String) (title : String) (store : List String)
    (now : Nat) : String :=
  slugLoop store (baseSlugOf norm title now)

/-- The slug generator `generateSlug` of slug.js with its actual normalizer. -/
def generateSlug (title : String) (store : List String) (now : Nat) : String :=
  generateSlugWith slugify title store now

/-- Test for the shape `post-<digits>` of the time-derived fallback token. -/
def isPostToken (s : String) : Bool :=
  s.toList.take 5 == "post-".toList &&
    !(s.toList.drop 5).isEmpty && (s.toList.drop 5).all Char.isDigit

/-- JS `String.prototype.includes` at the character-list level. -/
def jsIncludesL : List Char → List Char → Bool
  | [], pat => pat.isEmpty
  | l@(_ :: t), pat => pat.isPrefixOf l || jsIncludesL t pat

/-- JS `String.prototype.includes`. -/
def jsIncludes (s pat : String) : Bool := jsIncludesL s.toList pat.toList

/-- JS `String.prototype.split('/')`. -/
def splitSlash : List Char → List (List Char)
  | [] => [[]]
  | c :: cs =>
    let r := splitSlash cs
    if c == '/' then [] :: r
    else
      match r with
      | [] => [[c]]
      | h :: t => (c :: h) :: t

/-- JS `Array.prototype.join('/')`. -/
def joinSlash : List (List Char) → List Char
  | [] => []
  | [h] => h
  | h :: t => h ++ '/' :: joinSlash t

/-- Index of the first element equal to `"upload"`, as computed by
`urlParts.indexOf('upload')` in `extractPublicId` (cloudinary.js line 148). -/
def idxOfUpload : List (List Char) → Option Nat
  | [] => none
  | h :: t =>
    if h == "upload".toList then some 0
    else (idxOfUpload t).map (· + 1)

/-- Effect of the JavaScript `replace(/^v\d+\//, '')` (cloudinary.js line
159): strip a leading version segment `v<digits>/`. -/
def stripVersion (l : List Char) : List Char :=
  match l with
  | 'v' :: rest =>
    match rest.takeWhile Char.isDigit, rest.dropWhile Char.isDigit with
    | [], _ => l
    | _ :: _, '/' :: tail => tail
    | _, _ => l
  | _ => l

/-- Effect of the JavaScript `replace(/\.[^/.]+$/, '')` (cloudinary.js line
162): strip a final file extension, a dot followed by at least one character
other than a dot or a slash. -/
def stripExt (l : List Char) : List Char :=
  match l.reverse.dropWhile (fun c => !(c == '.') && !(c == '/')) with
  | '.' :: rest =>
    if (l.reverse.takeWhile (fun c => !(c == '.') && !(c == '/'))).isEmpty then l
    else rest.reverse
  | _ => l

/-- The `extractPublicId` function of cloudinary.js (lines 136-169). -/
def extractPublicId (imageUrl : String) : Option String :=
  if imageUrl == "" || !jsIncludes imageUrl "cloudinary.com" then none
  else
    let urlParts := splitSlash imageUrl.toList
    match idxOfUpload urlParts with
    | none => none
    | some uploadIndex =>
      some (stripExt (stripVersion (joinSlash (urlParts.drop (uploadIndex + 1))))).asString

/-- Outcome of `deleteFromCloudinary` (cloudinary.js lines 176-234):
`skipped` is the `{ result: 'skipped' }` early return for non-Cloudinary
URLs, `invalidUrl` the `{ result: 'error', error: 'Invalid URL format' }`
early return, `svcRes r` the result object `{ result: r }` returned by a
non-throwing destroy call, and `errAfterRetries m` the
`{ result: 'error', error: m }` value produced by the outer catch after
every attempt threw. -/
inductive DFC where
  | skipped : DFC
  | invalidUrl : DFC
  | svcRes : String → DFC
  | errAfterRetries : String → DFC
deriving DecidableEq

/-- Observable trace of one `deleteFromCloudinary` call: its returned outcome,
the number of delete-by-key (`uploader.destroy`) attempts issued, and the
number of fixed one-second backoff sleeps taken between attempts. -/
structure DFCTrace where
  outcome : DFC
  attempts : Nat
  sleeps : Nat
deriving DecidableEq

/-- The retry loop of `deleteFromCloudinary` (cloudinary.js lines 198-228):
while attempts remain, call `uploader.destroy`; any non-throwing result is
returned immediately; on a throw, decrement the remaining attempts, sleep one
second if any remain, and finally rethrow the last error (which the
surrounding catch converts into an error outcome).  `svc k` is the asset
service behaviour on the k-th call; the returned numbers count destroy calls
and backoff sleeps. -/
def destroyRetry (svc : Nat → Except String String) : Nat → Nat → String → DFC × Nat × Nat
  | _, 0, lastErr => (.errAfterRetries lastErr, 0, 0)
  | i, retries + 1, _ =>
    match svc i with
    | .ok r => (.svcRes r, 1, 0)
    | .error e =>
      let rest := destroyRetry svc (i + 1) retries e
      (rest.1, rest.2.1 + 1, if retries == 0 then rest.2.2 else rest.2.2 + 1)

/-- The `deleteFromCloudinary` function of cloudinary.js (lines 176-234); the
input is `none` for a JavaScript `null`/`undefined` URL. -/
def deleteFromCloudinary (svc : Nat → Except String String) (imageUrl : Option String) :
    DFCTrace :=
  match imageUrl with
  | none => ⟨.skipped, 0, 0⟩
  | some url =>
    if url == "" || !jsIncludes url "cloudinary.com" then ⟨.skipped, 0, 0⟩
    else
      match extractPublicId url with
      | none => ⟨.invalidUrl, 0, 0⟩
      | some publicId =>
        if publicId == "" then ⟨.invalidUrl, 0, 0⟩
        else
          let r := destroyRetry svc 0 3 ""
          ⟨r.1, r.2.1, r.2.2⟩

/-- A User document (user.model.js), with the fields the delete path reads. -/
structure User where
  id : Nat
  profilePicture : String
deriving DecidableEq

/-- A Post document (post.model.js), with the fields the delete path reads. -/
structure Post where
  id : Nat
  userId : Nat
  slug : String
  image : String
deriving DecidableEq

/-- A Comment document (comment.model.js): `postId` is the commented post,
`userId` the comment author. -/
structure Comment where
  id : Nat
  postId : Nat
  userId : Nat
deriving DecidableEq

/-- The document store backing the controllers. -/
structure Store where
  users : List User
  posts : List Post
  comments : List Comment
deriving DecidableEq

/-- Mongoose `User.findById`. -/
def findUser (st : Store) (uid : Nat) : Option User :=
  st.users.find? (fun u => u.id == uid)

/-- Mongoose `Post.findById`. -/
def findPost (st : Store) (pid : Nat) : Option Post :=
  st.posts.find? (fun p => p.id == pid)

/-- The comments referencing a post. -/
def commentsOn (st : Store) (pid : Nat) : List Comment :=
  st.comments.filter (fun c => c.postId == pid)

/-- One database or asset-service effect awaited by `deletepost`, in program
order. -/
inductive Step where
  | delCommentsByPost : Nat → Step
  | assetDelete : String → Step
  | delPost : Nat → Step
deriving DecidableEq

/-- Effect of one step on the document store; the asset deletion touches only
the external service, never the store. -/
def applyStep (st : Store) : Step → Store
  | .delCommentsByPost pid =>
    { st with comments := st.comments.filter (fun c => !(c.postId == pid)) }
  | .assetDelete _ => st
  | .delPost pid => { st with posts := st.posts.filter (fun p => !(p.id == pid)) }

/-- Run a prefix of the effect sequence, as left by a crash part-way through. -/
def runSteps (st : Store) (l : List Step) : Store := l.foldl applyStep st

/-- An HTTP response as produced through `res.status(...).json(...)` or the
error handler. -/
structure HttpResponse where
  status : Nat
  body : String
deriving DecidableEq

/-- The `deletepost` controller (post.controller.js lines 321-353), split into
its HTTP response and the ordered list of effects it awaits on the success
path: delete the post's comments, delete the Cloudinary image if the post has
one, delete the post record. -/
def deletepostSteps (st : Store) (isAdmin : Bool) (callerId paramUserId postId : Nat) :
    HttpResponse × List Step :=
  if !isAdmin && !(callerId == paramUserId) then
    (⟨403, "You are not allowed to delete this post"⟩, [])
  else
    match findPost st postId with
    | none => (⟨404, "Post not found"⟩, [])
    | some post =>
      if !(post.userId == paramUserId) && !isAdmin then
        (⟨403, "You are not allowed to delete this post"⟩, [])
      else
        (⟨200, "The post has been deleted"⟩,
          Step.delCommentsByPost postId ::
            ((if !(post.image == "") then [Step.assetDelete post.image] else []) ++
              [Step.delPost postId]))

/-- Result of a completed `deletepost` call: the HTTP response, the resulting
store, and the traces of the asset-deletion calls made along the way. -/
structure PostDelResult where
  resp : HttpResponse
  store : Store
  assetTraces : List DFCTrace
deriving DecidableEq

/-- The `deletepost` controller run to completion against the asset service
`svc`; `deleteFromCloudinary` never throws, so the response and the store
never depend on the asset-service behaviour. -/
def deletepost (svc : Nat → Except String String) (st : Store) (isAdmin : Bool)
    (callerId paramUserId postId : Nat) : PostDelResult :=
  let rs := deletepostSteps st isAdmin callerId paramUserId postId
  ⟨rs.1, runSteps st rs.2,
    rs.2.filterMap (fun s =>
      match s with
      | Step.assetDelete url => some (deleteFromCloudinary svc (some url))
      | _ => none)⟩

/-- Cloudinary-hosted images of the posts owned by `uid`, in store order: the
URLs `deleteUser` passes to `deleteFromCloudinary` in its post-image loop
(visitor.controller.js lines 159-166). -/
def postAssetCalls (st : Store) (uid : Nat) : List String :=
  ((st.posts.filter (fun p => p.userId == uid)).filter
    (fun p => !(p.image == "") && jsIncludes p.image "cloudinary.com")).map (fun p => p.image)

/-- The guard of `deleteUser`'s profile-picture branch
(visitor.controller.js lines 177-182). -/
def profilePicCond (u : User) : Bool :=
  !(u.profilePicture == "") && !jsIncludes u.profilePicture "googleusercontent.com" &&
    !jsIncludes u.profilePicture "pixabay.com" && jsIncludes u.profilePicture "cloudinary.com"

/-- The store after `deleteUser`'s database deletions
(visitor.controller.js lines 169, 173, 188): the user's posts
(`Post.deleteMany({ userId })`), the comments authored by the user
(`Comment.deleteMany({ userId })`), and the user record itself
(`User.findByIdAndDelete`) are removed. -/
def userCascadeStore (st : Store) (uid : Nat) : Store :=
  ⟨st.users.filter (fun u => !(u.id == uid)),
   st.posts.filter (fun p => !(p.userId == uid)),
   st.comments.filter (fun c => !(c.userId == uid))⟩

/-- Result of a completed `deleteUser` call: status, response message and
deletion counts, the resulting store, and the URLs passed to
`deleteFromCloudinary` in order. -/
structure UserDelResult where
  status : Nat
  message : String
  deletedPosts : Nat
  deletedComments : Nat
  store : Store
  assetCalls : List String
deriving DecidableEq

/-- The `deleteUser` controller (visitor.controller.js lines 144-200):
authorization check, user lookup, asset deletion for each owned post image
hosted on Cloudinary, bulk delete of the user's posts, bulk delete of the
comments authored by the user, profile-picture asset deletion unless the URL
is Google- or Pixabay-hosted or not on Cloudinary, and finally deletion of
the user record, reporting the deleted-post and deleted-comment counts. -/
def deleteUser (st : Store) (isAdmin : Bool) (callerId paramUserId : Nat) : UserDelResult :=
  if !isAdmin && !(callerId == paramUserId) then
    ⟨403, "You are not allowed to delete this user", 0, 0, st, []⟩
  else
    match findUser st paramUserId with
    | none => ⟨404, "User not found", 0, 0, st, []⟩
    | some user =>
      let imageCalls := postAssetCalls st paramUserId
      let deletedPosts := st.posts.countP (fun p => p.userId == paramUserId)
      let deletedComments := st.comments.countP (fun c => c.userId == paramUserId)
      let profileCalls := if profilePicCond user then [user.profilePicture] else []
      ⟨200, "User has been deleted", deletedPosts, deletedComments,
        userCascadeStore st paramUserId, imageCalls ++ profileCalls⟩

/-- An always-throwing asset service: every destroy attempt fails upstream. -/
def svcFail : Nat → Except String String := fun _ => .error "upstream failure"

/-- An always-succeeding asset service. -/
def svcOk : Nat → Except String String := fun _ => .ok "ok"

/-- Example store: author 1 owns post 10; user 2 commented on it. -/
def exStore : Store := ⟨[⟨1, ""⟩, ⟨2, ""⟩], [⟨10, 1, "hello", ""⟩], [⟨100, 10, 2⟩]⟩

/-- Example Cloudinary image URL. -/
def exImageUrl : String := "https://res.cloudinary.com/demo/image/upload/v123/blog/pic.jpg"

/-- Example store whose post 10 carries a Cloudinary-hosted image. -/
def exStoreImg : Store := ⟨[⟨1, ""⟩], [⟨10, 1, "hello", exImageUrl⟩], [⟨100, 10, 2⟩]⟩

/-- Example store: user 1 has a Google-hosted (OAuth provider) avatar. -/
def exStoreGoogle : Store := ⟨[⟨1, "https://lh3.googleusercontent.com/a/photo.jpg"⟩], [], []⟩

theorem toList_asString (l : List Char) : l.asString.toList = l := rfl

theorem dash_data : "-".data = ['-'] := rfl

theorem decDigitsAux_eq (fuel n : Nat) (h : n ≤ fuel) :
    decDigitsAux fuel n = Nat.digits 10 n := by
  induction fuel generalizing n with
  | zero =>
    interval_cases n
    simp [decDigitsAux]
  | succ fuel ih =>
    cases n with
    | zero => simp [decDigitsAux]
    | succ m =>
      have hlt : (m + 1) / 10 < m + 1 := Nat.div_lt_self (Nat.succ_pos m) (by norm_num)
      have hrec := ih ((m + 1) / 10) (by omega)
      simp only [decDigitsAux, hrec]
      rw [Nat.digits_def' (b := 10) (by norm_num) (Nat.succ_pos m)]

theorem foldl_digitChar (l : List Nat) (a : Nat) (h : ∀ d ∈ l, d < 10) :
    List.foldl (fun acc c => acc * 10 + (c.toNat - 48)) a (l.map Nat.digitChar) =
      List.foldl (fun acc d => acc * 10 + d) a l := by
  induction l generalizing a with
  | nil => rfl
  | cons d t ih =>
    have hd : d < 10 := h d (by simp)
    have hchar : (Nat.digitChar d).toNat - 48 = d := by
      interval_cases d <;> decide
    simp only [List.map_cons, List.foldl_cons, hchar]
    exact ih _ (fun x hx => h x (by simp [hx]))

theorem foldl_reverse_ofDigits (l : List Nat) (a : Nat) :
    List.foldl (fun acc d => acc * 10 + d) a l.reverse =
      a * 10 ^ l.length + Nat.ofDigits 10 l := by
  induction l generalizing a with
  | nil => simp
  | cons d t ih =>
    simp only [List.reverse_cons, List.foldl_append, List.foldl_cons, List.foldl_nil, ih,
      Nat.ofDigits_cons, List.length_cons]
    ring

theorem decVal_decRepr (n : Nat) : decVal (decRepr n) = n := by
  by_cases h : n = 0
  · subst h; decide
  · have hd : decDigitsAux n n = Nat.digits 10 n := decDigitsAux_eq n n le_rfl
    have hlt : ∀ d ∈ (Nat.digits 10 n).reverse, d < 10 := fun d hdm =>
      Nat.digits_lt_base (by norm_num) (List.mem_reverse.mp hdm)
    calc decVal (decRepr n)
        = List.foldl (fun acc c => acc * 10 + (c.toNat - 48)) 0
            ((Nat.digits 10 n).reverse.map Nat.digitChar) := by
          unfold decVal decRepr
          rw [if_neg h, toList_asString, hd]
      _ = List.foldl (fun acc d => acc * 10 + d) 0 (Nat.digits 10 n).reverse :=
          foldl_digitChar _ _ hlt
      _ = 0 * 10 ^ (Nat.digits 10 n).length + Nat.ofDigits 10 (Nat.digits 10 n) :=
          foldl_reverse_ofDigits _ _
      _ = n := by simp [Nat.ofDigits_digits]

theorem decRepr_injective : Function.Injective decRepr :=
  Function.LeftInverse.injective decVal_decRepr

theorem decRepr_ne_empty (n : Nat) : decRepr n ≠ "" := by
  by_cases h : n = 0
  · subst h; decide
  · intro hc
    have hdata := congrArg String.data hc
    simp only [decRepr, if_neg h] at hdata
    have hnil : (decDigitsAux n n).reverse.map Nat.digitChar = [] := hdata
    have : decDigitsAux n n = [] := by
      simpa using congrArg List.length hnil
    rw [decDigitsAux_eq n n le_rfl] at this
    exact (Nat.digits_ne_nil_iff_ne_zero.mpr h) this

theorem decRepr_isDigit (n : Nat) : ∀ c ∈ (decRepr n).toList, c.isDigit = true := by
  by_cases h : n = 0
  · subst h; decide
  · intro c hc
    simp only [decRepr, if_neg h, toList_asString] at hc
    obtain ⟨d, hd, rfl⟩ := List.mem_map.mp hc
    have hd10 : d < 10 := by
      have hmem := List.mem_reverse.mp hd
      rw [decDigitsAux_eq n n le_rfl] at hmem
      exact Nat.digits_lt_base (by norm_num) hmem
    interval_cases d <;> decide

theorem candidate_injective (base : String) : Function.Injective (candidate base) := by
  intro i j hij
  cases i with
  | zero =>
    cases j with
    | zero => rfl
    | succ k =>
      exfalso
      have h := congrArg (fun s => s.data.length) hij
      simp [candidate, String.data_append, dash_data] at h
  | succ m =>
    cases j with
    | zero =>
      exfalso
      have h := congrArg (fun s => s.data.length) hij
      simp [candidate, String.data_append, dash_data] at h
    | succ k =>
      have h := congrArg String.data hij
      simp only [candidate, String.data_append, dash_data, List.append_assoc,
        List.singleton_append] at h
      have h2 : '-' :: (decRepr (m + 1)).data = '-' :: (decRepr (k + 1)).data :=
        List.append_cancel_left h
      have h3 : decRepr (m + 1) = decRepr (k + 1) := String.ext (by injection h2)
      have h4 := decRepr_injective h3
      omega

theorem exists_candidate_not_mem (store : List String) (base : String) :
    ∃ j, j < store.length + 1 ∧ candidate base j ∉ store := by
  by_contra hcon
  push_neg at hcon
  have hsub : (Finset.range (store.length + 1)).image (candidate base) ⊆ store.toFinset := by
    intro s hs
    obtain ⟨j, hj, rfl⟩ := Finset.mem_image.mp hs
    exact List.mem_toFinset.mpr (hcon j (Finset.mem_range.mp hj))
  have hcard := Finset.card_le_card hsub
  rw [Finset.card_image_of_injective _ (candidate_injective base), Finset.card_range] at hcard
  have := store.toFinset_card_le
  omega

theorem slugLoopAux_spec (store : List String) (base : String) :
    ∀ fuel i, (∃ j, j < fuel ∧ candidate base (i + j) ∉ store) →
      ∃ j, j < fuel ∧ slugLoopAux store base fuel i = candidate base (i + j) ∧
        candidate base (i + j) ∉ store ∧ ∀ k, k < j → candidate base (i + k) ∈ store := by
  intro fuel
  induction fuel with
  | zero =>
    intro i h
    obtain ⟨j, hj, _⟩ := h
    omega
  | succ fuel ih =>
    intro i h
    obtain ⟨j, hj, hfree⟩ := h
    by_cases hmem : candidate base i ∈ store
    · have hj0 : j ≠ 0 := by
        rintro rfl
        rw [Nat.add_zero] at hfree
        exact hfree hmem
      obtain ⟨j', rfl⟩ : ∃ j', j = j' + 1 := ⟨j - 1, by omega⟩
      have hfree' : candidate base (i + 1 + j') ∉ store := by
        have heq : i + 1 + j' = i + (j' + 1) := by omega
        rw [heq]; exact hfree
      obtain ⟨j2, hj2, heq, hfree2, hall⟩ := ih (i + 1) ⟨j', by omega, hfree'⟩
      refine ⟨j2 + 1, by omega, ?_, ?_, ?_⟩
      · simp only [slugLoopAux, if_pos hmem]
        rw [heq]
        congr 1
        omega
      · have heq2 : i + (j2 + 1) = i + 1 + j2 := by omega
        rw [heq2]; exact hfree2
      · intro k hk
        cases k with
        | zero => simpa using hmem
        | succ k' =>
          have heq3 : i + (k' + 1) = i + 1 + k' := by omega
          rw [heq3]
          exact hall k' (by omega)
    · refine ⟨0, by omega, ?_, ?_, ?_⟩
      · simp [slugLoopAux, if_neg hmem]
      · simpa using hmem
      · intro k hk
        omega

theorem slugLoop_spec (store : List String) (base : String) :
    ∃ j, slugLoop store base = candidate base j ∧ candidate base j ∉ store ∧
      ∀ k, k < j → candidate base k ∈ store := by
  obtain ⟨j, hj, hfree⟩ := exists_candidate_not_mem store base
  obtain ⟨j2, _, heq, hfree2, hall⟩ :=
    slugLoopAux_spec store base (store.length + 1) 0 ⟨j, hj, by simpa using hfree⟩
  exact ⟨j2, by simpa using heq, by simpa using hfree2, fun k hk => by simpa using hall k hk⟩

theorem slugLoop_not_mem (store : List String) (base : String) :
    slugLoop store base ∉ store := by
  obtain ⟨j, heq, hfree, _⟩ := slugLoop_spec store base
  rw [heq]; exact hfree

theorem candidate_ne_empty {base : String} (h : base ≠ "") (j : Nat) :
    candidate base j ≠ "" := by
  cases j with
  | zero => exact h
  | succ k =>
    intro hc
    have hlen := congrArg (fun s => s.data.length) hc
    simp [candidate, String.data_append, dash_data] at hlen

theorem slugLoop_ne_empty (store : List String) {base : String} (h : base ≠ "") :
    slugLoop store base ≠ "" := by
  obtain ⟨j, heq, _, _⟩ := slugLoop_spec store base
  rw [heq]
  exact candidate_ne_empty h j

theorem asString_toList (s : String) : s.toList.asString = s := rfl

theorem post_dash_data : "post-".data = ['p', 'o', 's', 't', '-'] := rfl

theorem post_append_ne_empty (n : Nat) : ("post-" ++ decRepr n) ≠ "" := by
  intro hc
  have h := congrArg String.data hc
  rw [String.data_append, post_dash_data] at h
  simp at h

theorem dropWhile_of_none {l : List Char} {p : Char → Bool}
    (h : ∀ c ∈ l, p c = false) : l.dropWhile p = l := by
  cases l with
  | nil => rfl
  | cons c t =>
    rw [List.dropWhile_cons, if_neg]
    simp [h c (by simp)]

theorem jsTrim_eq_self {s : String} (h : ∀ c ∈ s.toList, c.isWhitespace = false) :
    jsTrim s = s := by
  unfold jsTrim
  rw [dropWhile_of_none h, dropWhile_of_none (fun c hc => h c (List.mem_reverse.mp hc)),
    List.reverse_reverse, asString_toList]

theorem collapseWsAux_no_ws (l : List Char) :
    ∀ b, ∀ c ∈ collapseWsAux b l, c.isWhitespace = false := by
  induction l with
  | nil =>
    intro b c hc
    simp [collapseWsAux] at hc
  | cons d t ih =>
    intro b c hc
    simp only [collapseWsAux] at hc
    by_cases hd : d.isWhitespace
    · rw [if_pos hd] at hc
      cases b with
      | true => exact ih true c hc
      | false =>
        rcases List.mem_cons.mp hc with rfl | hmem
        · decide
        · exact ih true c hmem
    · rw [if_neg hd] at hc
      rcases List.mem_cons.mp hc with rfl | hmem
      · simpa using hd
      · exact ih false c hmem

theorem rawFallback_no_ws (t : String) :
    ∀ c ∈ (rawFallback t).toList, c.isWhitespace = false := by
  intro c hc
  unfold rawFallback at hc
  rw [toList_asString] at hc
  have hc2 := (List.mem_filter.mp hc).1
  unfold collapseWs at hc2
  rw [toList_asString] at hc2
  exact collapseWsAux_no_ws _ false c hc2

theorem baseSlugOf_ne_empty (norm : String → String) (title : String) (now : Nat) :
    baseSlugOf norm title now ≠ "" := by
  simp only [baseSlugOf]
  split
  · split
    · exact post_append_ne_empty now
    · next h =>
      intro hc
      apply h
      rw [hc]
      decide
  · next h =>
    intro hc
    apply h
    rw [hc]
    decide

theorem slugLoop_of_not_mem (store : List String) (base : String) (h : base ∉ store) :
    slugLoop store base = base := by
  obtain ⟨j, heq, _, hall⟩ := slugLoop_spec store base
  cases j with
  | zero => exact heq
  | succ k => exact absurd (hall 0 (Nat.succ_pos k)) h

theorem isPostToken_post_append (n : Nat) : isPostToken ("post-" ++ decRepr n) = true := by
  have hdata : ("post-" ++ decRepr n).toList =
      'p' :: 'o' :: 's' :: 't' :: '-' :: (decRepr n).toList := by
    show ("post-" ++ decRepr n).data = _
    rw [String.data_append, post_dash_data]
    rfl
  unfold isPostToken
  rw [hdata]
  have htake : ('p' :: 'o' :: 's' :: 't' :: '-' :: (decRepr n).toList).take 5 =
      ['p', 'o', 's', 't', '-'] := rfl
  have hdrop : ('p' :: 'o' :: 's' :: 't' :: '-' :: (decRepr n).toList).drop 5 =
      (decRepr n).toList := rfl
  rw [htake, hdrop]
  have hne : (decRepr n).toList ≠ [] := fun hc => decRepr_ne_empty n (String.ext hc)
  simp [List.isEmpty_iff, List.all_eq_true]
  exact ⟨hne, decRepr_isDigit n⟩

/-- C2: for every title string, including titles that normalize to an empty
string such as non-Latin text, `generateSlug` returns a non-empty string. -/
theorem generateSlug_ne_empty (title : String) (store : List String) (now : Nat) :
    generateSlug title store now ≠ "" :=
  slugLoop_ne_empty store (baseSlugOf_ne_empty slugify title now)

theorem generateSlug_ne_empty_witness : generateSlug "বাংলা কথা" [] 7 ≠ "" :=
  generateSlug_ne_empty "বাংলা কথা" [] 7

/-- C5: for every title and finite store, the disambiguation loop of
`generateSlug` terminates and stops at the first candidate, in the order
base, base-1, base-2, …, that the uniqueness check reports as unused; such a
candidate exists because the candidates are pairwise distinct and the store
is finite. -/
theorem generateSlug_terminates_first_free (title : String) (store : List String) (now : Nat) :
    ∃ j, generateSlug title store now = candidate (baseSlugOf slugify title now) j ∧
      candidate (baseSlugOf slugify title now) j ∉ store ∧
      ∀ k, k < j → candidate (baseSlugOf slugify title now) k ∈ store :=
  slugLoop_spec store (baseSlugOf slugify title now)

theorem generateSlug_terminates_first_free_witness :
    ∃ j, generateSlug "Hello World" ["Hello-World"] 0 =
        candidate (baseSlugOf slugify "Hello World" 0) j ∧
      candidate (baseSlugOf slugify "Hello World" 0) j ∉ ["Hello-World"] ∧
      ∀ k, k < j → candidate (baseSlugOf slugify "Hello World" 0) k ∈ ["Hello-World"] :=
  generateSlug_terminates_first_free "Hello World" ["Hello-World"] 0

/-- C3 counterexample: the code calls slugify with `lower: false`, so the
first post titled "Hello World" receives the slug "Hello-World", not the
lowercase "hello-world" stated by the claim. -/
theorem generateSlug_helloWorld_not_lowercase :
    generateSlug "Hello World" [] 0 = "Hello-World" ∧
      generateSlug "Hello World" [] 0 ≠ "hello-world" :=
  ⟨by decide, by decide⟩

/-- C3 (amended): `generateSlug` returns the first candidate, in the order
base, base-1, base-2, …, that the uniqueness check reports as free; the
returned slug is not present in the store at the time of the last check; two
sequential calls, the first result being persisted into the store before the
second call, return different slugs; and two back-to-back posts titled
"Hello World" receive the slugs "Hello-World" and "Hello-World-1" (case
preserved, since the code passes `lower: false` to slugify). -/
theorem generateSlug_first_free_and_sequential :
    (∀ title store now, ∃ j,
        generateSlug title store now = candidate (baseSlugOf slugify title now) j ∧
        candidate (baseSlugOf slugify title now) j ∉ store ∧
        ∀ k, k < j → candidate (baseSlugOf slugify title now) k ∈ store) ∧
    (∀ title store now, generateSlug title store now ∉ store) ∧
    (∀ t₁ t₂ store n₁ n₂,
        generateSlug t₂ (generateSlug t₁ store n₁ :: store) n₂ ≠ generateSlug t₁ store n₁) ∧
    generateSlug "Hello World" [] 0 = "Hello-World" ∧
    generateSlug "Hello World" ["Hello-World"] 0 = "Hello-World-1" := by
  refine ⟨?_, ?_, ?_, by decide, by decide⟩
  · intro title store now
    exact slugLoop_spec store (baseSlugOf slugify title now)
  · intro title store now
    exact slugLoop_not_mem store (baseSlugOf slugify title now)
  · intro t₁ t₂ store n₁ n₂ hc
    have h := slugLoop_not_mem (generateSlug t₁ store n₁ :: store) (baseSlugOf slugify t₂ n₂)
    apply h
    rw [show slugLoop (generateSlug t₁ store n₁ :: store) (baseSlugOf slugify t₂ n₂)
          = generateSlug t₂ (generateSlug t₁ store n₁ :: store) n₂ from rfl, hc]
    exact List.mem_cons_self _ _

theorem generateSlug_first_free_and_sequential_witness :
    generateSlug "Hello World" ([] : List String) 0 ∉ ([] : List String) ∧
      generateSlug "Ok" (generateSlug "Ok" [] 0 :: []) 0 ≠ generateSlug "Ok" [] 0 :=
  ⟨generateSlug_first_free_and_sequential.2.1 "Hello World" [] 0,
   generateSlug_first_free_and_sequential.2.2.1 "Ok" "Ok" [] 0 0⟩

/-- C4: when normalization of the title yields an empty or whitespace-only
string, the base slug is the raw title trimmed, with internal whitespace runs
collapsed to single hyphens and the characters /, \, ?, #, % stripped; when
that is still empty — in particular for the empty-string title — the base is
the token "post-" followed by the epoch milliseconds, and (when that token is
not already taken) the result matches the pattern post-<digits>. -/
theorem generateSlug_fallback_chain (title : String) (store : List String) (now : Nat)
    (hnorm : jsTrim (slugify title) = "") :
    (rawFallback title ≠ "" → baseSlugOf slugify title now = rawFallback title) ∧
    (rawFallback title = "" → baseSlugOf slugify title now = "post-" ++ decRepr now) ∧
    (title = "" → ("post-" ++ decRepr now) ∉ store →
      generateSlug title store now = "post-" ++ decRepr now ∧
        isPostToken (generateSlug title store now) = true) := by
  have hcond1 : (slugify title == "" || jsTrim (slugify title) == "") = true := by
    simp [hnorm]
  have hb2 : (if slugify title == "" || jsTrim (slugify title) == "" then rawFallback title
      else slugify title) = rawFallback title := by
    rw [if_pos hcond1]
  refine ⟨?_, ?_, ?_⟩
  · intro hne
    have htrim : jsTrim (rawFallback title) = rawFallback title :=
      jsTrim_eq_self (rawFallback_no_ws title)
    have hcond2 : (rawFallback title == "" || jsTrim (rawFallback title) == "") = false := by
      simp [htrim, hne]
    simp only [baseSlugOf, hb2, hcond2]
    rfl
  · intro hemp
    have hcond2 : (rawFallback title == "" || jsTrim (rawFallback title) == "") = true := by
      simp [hemp]
    simp only [baseSlugOf, hb2, hcond2]
    rfl
  · rintro rfl hfree
    have hbase : baseSlugOf slugify "" now = "post-" ++ decRepr now := by
      have hemp : rawFallback "" = "" := rfl
      have hcond2 : (rawFallback "" == "" || jsTrim (rawFallback "") == "") = true := by
        simp [hemp]
      simp only [baseSlugOf, hb2, hcond2]
      rfl
    have hres : generateSlug "" store now = "post-" ++ decRepr now := by
      show slugLoop store (baseSlugOf slugify "" now) = _
      rw [hbase]
      exact slugLoop_of_not_mem store _ hfree
    exact ⟨hres, by rw [hres]; exact isPostToken_post_append now⟩

theorem generateSlug_fallback_chain_witness :
    (jsTrim (slugify "বাংলা কথা") = "" ∧ rawFallback "বাংলা কথা" ≠ "" ∧
      baseSlugOf slugify "বাংলা কথা" 7 = rawFallback "বাংলা কথা") ∧
    (jsTrim (slugify "") = "" ∧ ("post-" ++ decRepr 1712345) ∉ ([] : List String) ∧
      generateSlug "" [] 1712345 = "post-" ++ decRepr 1712345 ∧
      isPostToken (generateSlug "" [] 1712345) = true) :=
  ⟨⟨by decide, by decide,
    (generateSlug_fallback_chain "বাংলা কথা" [] 7 (by decide)).1 (by decide)⟩,
   ⟨by decide, by decide,
    (generateSlug_fallback_chain "" [] 1712345 (by decide)).2.2 rfl (by decide)⟩⟩

theorem find?_of_filter_out {α : Type} (l : List α) (p : α → Bool) :
    (l.filter (fun x => !p x)).find? p = none := by
  rw [List.find?_eq_none]
  intro x hx
  have h2 := (List.mem_filter.mp hx).2
  simp only [Bool.not_eq_true'] at h2
  simp [h2]

theorem filter_out_filter {α : Type} (l : List α) (p : α → Bool) :
    (l.filter (fun x => !p x)).filter p = [] := by
  rw [List.filter_eq_nil_iff]
  intro x hx
  have h2 := (List.mem_filter.mp hx).2
  simp only [Bool.not_eq_true'] at h2
  simp [h2]

theorem deleteUser_eq (st : Store) (isAdmin : Bool) (callerId uid : Nat) (u : User)
    (hauth : (!isAdmin && !(callerId == uid)) = false)
    (hfind : findUser st uid = some u) :
    deleteUser st isAdmin callerId uid =
      ⟨200, "User has been deleted", st.posts.countP (fun p => p.userId == uid),
        st.comments.countP (fun c => c.userId == uid), userCascadeStore st uid,
        postAssetCalls st uid ++ (if profilePicCond u then [u.profilePicture] else [])⟩ := by
  simp [deleteUser, hauth, hfind]

theorem deletepostSteps_eq (st : Store) (isAdmin : Bool) (callerId paramUserId postId : Nat)
    (post : Post) (hauth : (!isAdmin && !(callerId == paramUserId)) = false)
    (hfind : findPost st postId = some post)
    (hown : (!(post.userId == paramUserId) && !isAdmin) = false) :
    deletepostSteps st isAdmin callerId paramUserId postId =
      (⟨200, "The post has been deleted"⟩,
        Step.delCommentsByPost postId ::
          ((if !(post.image == "") then [Step.assetDelete post.image] else []) ++
            [Step.delPost postId])) := by
  simp [deletepostSteps, hauth, hfind, hown]

theorem deletepost_success (svc : Nat → Except String String) (st : Store) (isAdmin : Bool)
    (callerId paramUserId postId : Nat) (post : Post)
    (hauth : (!isAdmin && !(callerId == paramUserId)) = false)
    (hfind : findPost st postId = some post)
    (hown : (!(post.userId == paramUserId) && !isAdmin) = false) :
    (deletepost svc st isAdmin callerId paramUserId postId).resp =
      ⟨200, "The post has been deleted"⟩ ∧
    (deletepost svc st isAdmin callerId paramUserId postId).store.posts =
      st.posts.filter (fun p => !(p.id == postId)) ∧
    (deletepost svc st isAdmin callerId paramUserId postId).store.comments =
      st.comments.filter (fun c => !(c.postId == postId)) ∧
    findPost (deletepost svc st isAdmin callerId paramUserId postId).store postId = none := by
  have hsteps := deletepostSteps_eq st isAdmin callerId paramUserId postId post hauth hfind hown
  unfold deletepost
  rw [hsteps]
  by_cases himg : (post.image == "") = true
  · rw [if_neg (by simp [himg]), List.nil_append]
    refine ⟨rfl, rfl, rfl, ?_⟩
    exact find?_of_filter_out st.posts (fun p => p.id == postId)
  · rw [if_pos (by simp [himg]), List.singleton_append]
    refine ⟨rfl, rfl, rfl, ?_⟩
    exact find?_of_filter_out st.posts (fun p => p.id == postId)

theorem destroyRetry_counts (svc : Nat → Except String String) :
    ∀ retries i lastErr,
      (destroyRetry svc i retries lastErr).2.1 ≤ retries ∧
      (destroyRetry svc i retries lastErr).2.2 = (destroyRetry svc i retries lastErr).2.1 - 1 ∧
      (1 ≤ retries → 1 ≤ (destroyRetry svc i retries lastErr).2.1) := by
  intro retries
  induction retries with
  | zero =>
    intro i lastErr
    exact ⟨le_rfl, rfl, fun h => absurd h (by omega)⟩
  | succ r ih =>
    intro i lastErr
    cases hsvc : svc i with
    | ok v =>
      have hred : destroyRetry svc i (r + 1) lastErr = (.svcRes v, 1, 0) := by
        simp [destroyRetry, hsvc]
      rw [hred]
      exact ⟨Nat.le_add_left 1 r, rfl, fun _ => le_rfl⟩
    | error e =>
      obtain ⟨h1, h2, h3⟩ := ih (i + 1) e
      by_cases hr : r = 0
      · subst hr
        have hred0 : destroyRetry svc i 1 lastErr = (.errAfterRetries e, 1, 0) := by
          simp [destroyRetry, hsvc]
        rw [hred0]
        exact ⟨le_rfl, rfl, fun _ => le_rfl⟩
      · have hrne : (r == 0) = false := by simp [hr]
        have hred : destroyRetry svc i (r + 1) lastErr =
            ((destroyRetry svc (i + 1) r e).1, (destroyRetry svc (i + 1) r e).2.1 + 1,
              (destroyRetry svc (i + 1) r e).2.2 + 1) := by
          simp [destroyRetry, hsvc, hrne]
        rw [hred]
        have h4 := h3 (by omega)
        refine ⟨Nat.succ_le_succ h1, ?_, fun _ => Nat.le_add_left 1 _⟩
        show (destroyRetry svc (i + 1) r e).2.2 + 1 =
          (destroyRetry svc (i + 1) r e).2.1 + 1 - 1
        omega

theorem destroyRetry_first_ok (svc : Nat → Except String String) (r : String)
    (h : svc 0 = Except.ok r) :
    destroyRetry svc 0 3 "" = (.svcRes r, 1, 0) := by
  simp [destroyRetry, h]

theorem destroyRetry_all_errors (svc : Nat → Except String String) (e₀ e₁ e₂ : String)
    (h0 : svc 0 = Except.error e₀) (h1 : svc 1 = Except.error e₁)
    (h2 : svc 2 = Except.error e₂) :
    destroyRetry svc 0 3 "" = (.errAfterRetries e₂, 3, 2) := by
  simp [destroyRetry, h0, h1, h2]

theorem deleteFromCloudinary_valid (svc : Nat → Except String String) (url pid : String)
    (hne : (url == "" || !jsIncludes url "cloudinary.com") = false)
    (hpid : extractPublicId url = some pid)
    (hpne : (pid == "") = false) :
    deleteFromCloudinary svc (some url) =
      ⟨(destroyRetry svc 0 3 "").1, (destroyRetry svc 0 3 "").2.1,
        (destroyRetry svc 0 3 "").2.2⟩ := by
  simp [deleteFromCloudinary, hne, hpid, hpne]

theorem deleteFromCloudinary_counts (svc : Nat → Except String String) (url? : Option String) :
    (deleteFromCloudinary svc url?).attempts ≤ 3 ∧
    (deleteFromCloudinary svc url?).sleeps = (deleteFromCloudinary svc url?).attempts - 1 := by
  obtain ⟨h1, h2, _⟩ := destroyRetry_counts svc 3 0 ""
  cases url? with
  | none => exact ⟨Nat.zero_le 3, rfl⟩
  | some url =>
    by_cases hskip : (url == "" || !jsIncludes url "cloudinary.com") = true
    · have hred : deleteFromCloudinary svc (some url) = ⟨.skipped, 0, 0⟩ := by
        simp [deleteFromCloudinary, hskip]
      rw [hred]
      exact ⟨Nat.zero_le 3, rfl⟩
    · have hskip' : (url == "" || !jsIncludes url "cloudinary.com") = false := by
        simpa using hskip
      cases hpid : extractPublicId url with
      | none =>
        have hred : deleteFromCloudinary svc (some url) = ⟨.invalidUrl, 0, 0⟩ := by
          simp [deleteFromCloudinary, hskip', hpid]
        rw [hred]
        exact ⟨Nat.zero_le 3, rfl⟩
      | some pid =>
        by_cases hpe : (pid == "") = true
        · have hred : deleteFromCloudinary svc (some url) = ⟨.invalidUrl, 0, 0⟩ := by
            simp [deleteFromCloudinary, hskip', hpid, hpe]
          rw [hred]
          exact ⟨Nat.zero_le 3, rfl⟩
        · have hpe' : (pid == "") = false := by simpa using hpe
          rw [deleteFromCloudinary_valid svc url pid hskip' hpid hpe']
          exact ⟨h1, h2⟩

/-- C1 counterexample: deleting author 1, who owns post 10 carrying comment
100 written by user 2, removes the author and the post but leaves that
comment in the store — `deleteUser` only deletes comments authored by the
deleted user (`Comment.deleteMany({ userId })`), so comments written by
other authors on the author's posts are orphaned, not deleted. -/
theorem deleteUser_orphans_other_authors_comments :
    (deleteUser exStore true 0 1).store.comments = [⟨100, 10, 2⟩] ∧
      findUser (deleteUser exStore true 0 1).store 1 = none ∧
      (deleteUser exStore true 0 1).store.posts = [] ∧
      commentsOn (deleteUser exStore true 0 1).store 10 ≠ [] :=
  ⟨by decide, by decide, by decide, by decide⟩

/-- C1 (amended): for an authorized caller and an existing Author,
`deleteUser` removes exactly the posts owned by the Author and exactly the
comments authored by the Author (on any post), reports those two counts, and
afterwards the Author record no longer resolves by id; comments written by
other authors — including comments on the Author's own posts — are kept. -/
theorem deleteUser_cascade (st : Store) (isAdmin : Bool) (callerId uid : Nat) (u : User)
    (hauth : (!isAdmin && !(callerId == uid)) = false)
    (hfind : findUser st uid = some u) :
    (deleteUser st isAdmin callerId uid).status = 200 ∧
    (deleteUser st isAdmin callerId uid).store.posts =
      st.posts.filter (fun p => !(p.userId == uid)) ∧
    (deleteUser st isAdmin callerId uid).deletedPosts =
      st.posts.countP (fun p => p.userId == uid) ∧
    (deleteUser st isAdmin callerId uid).store.comments =
      st.comments.filter (fun c => !(c.userId == uid)) ∧
    (deleteUser st isAdmin callerId uid).deletedComments =
      st.comments.countP (fun c => c.userId == uid) ∧
    (deleteUser st isAdmin callerId uid).store.users =
      st.users.filter (fun v => !(v.id == uid)) ∧
    findUser (deleteUser st isAdmin callerId uid).store uid = none := by
  have hrec := deleteUser_eq st isAdmin callerId uid u hauth hfind
  rw [hrec]
  refine ⟨rfl, rfl, rfl, rfl, rfl, rfl, ?_⟩
  exact find?_of_filter_out st.users (fun v => v.id == uid)

theorem deleteUser_cascade_witness :
    ((!true && !((0 : Nat) == 1)) = false ∧ findUser exStore 1 = some ⟨1, ""⟩) ∧
    ((deleteUser exStore true 0 1).status = 200 ∧
      (deleteUser exStore true 0 1).store.posts =
        exStore.posts.filter (fun p => !(p.userId == 1)) ∧
      (deleteUser exStore true 0 1).deletedPosts =
        exStore.posts.countP (fun p => p.userId == 1) ∧
      (deleteUser exStore true 0 1).store.comments =
        exStore.comments.filter (fun c => !(c.userId == 1)) ∧
      (deleteUser exStore true 0 1).deletedComments =
        exStore.comments.countP (fun c => c.userId == 1) ∧
      (deleteUser exStore true 0 1).store.users =
        exStore.users.filter (fun v => !(v.id == 1)) ∧
      findUser (deleteUser exStore true 0 1).store 1 = none) :=
  ⟨⟨by decide, by decide⟩, deleteUser_cascade exStore true 0 1 ⟨1, ""⟩ (by decide) (by decide)⟩

/-- C9: on the success path, `deleteUser` issues the profile-picture asset
call exactly when the picture URL is Cloudinary-hosted and on neither the
OAuth-provider host (googleusercontent.com) nor the default-image host
(pixabay.com); in particular it never issues the call for URLs on those two
hosts; and the resulting store is `userCascadeStore`, which does not depend
on the profile picture, so the profile-picture branch affects no stored
field of any entity. -/
theorem deleteUser_profile_picture_policy (st : Store) (isAdmin : Bool) (callerId uid : Nat)
    (u : User) (hauth : (!isAdmin && !(callerId == uid)) = false)
    (hfind : findUser st uid = some u) :
    (deleteUser st isAdmin callerId uid).assetCalls =
      postAssetCalls st uid ++ (if profilePicCond u then [u.profilePicture] else []) ∧
    (profilePicCond u = true ↔
      (jsIncludes u.profilePicture "cloudinary.com" = true ∧
        jsIncludes u.profilePicture "googleusercontent.com" = false ∧
        jsIncludes u.profilePicture "pixabay.com" = false)) ∧
    (jsIncludes u.profilePicture "googleusercontent.com" = true → profilePicCond u = false) ∧
    (jsIncludes u.profilePicture "pixabay.com" = true → profilePicCond u = false) ∧
    (deleteUser st isAdmin callerId uid).store = userCascadeStore st uid := by
  have hrec := deleteUser_eq st isAdmin callerId uid u hauth hfind
  refine ⟨by rw [hrec], ?_, ?_, ?_, by rw [hrec]⟩
  · constructor
    · intro h
      simp only [profilePicCond, Bool.and_eq_true, Bool.not_eq_true'] at h
      exact ⟨h.2, h.1.1.2, h.1.2⟩
    · rintro ⟨hcl, hg, hp⟩
      have hne : (u.profilePicture == "") = false := by
        by_cases hq : u.profilePicture = ""
        · rw [hq] at hcl
          exact absurd hcl (by decide)
        · simp [hq]
      simp [profilePicCond, hne, hg, hp, hcl]
  · intro hg
    simp [profilePicCond, hg]
  · intro hp
    simp [profilePicCond, hp]

theorem deleteUser_profile_picture_policy_witness :
    ((!true && !((0 : Nat) == 1)) = false ∧
      findUser exStoreGoogle 1 = some ⟨1, "https://lh3.googleusercontent.com/a/photo.jpg"⟩ ∧
      jsIncludes "https://lh3.googleusercontent.com/a/photo.jpg" "googleusercontent.com" =
        true) ∧
    profilePicCond ⟨1, "https://lh3.googleusercontent.com/a/photo.jpg"⟩ = false ∧
    (deleteUser exStoreGoogle true 0 1).assetCalls = [] := by
  have h := deleteUser_profile_picture_policy exStoreGoogle true 0 1
    ⟨1, "https://lh3.googleusercontent.com/a/photo.jpg"⟩ (by decide) (by decide)
  have hcond := h.2.2.1 (by decide)
  refine ⟨⟨by decide, by decide, by decide⟩, hcond, ?_⟩
  rw [h.1, hcond]
  decide

/-- C8: calling `deletepost` (as an authorized caller) with an id that does
not resolve to an existing post — in particular an already-deleted id —
returns the 404 Not Found error, never a silent success, and leaves the
store unchanged with no asset-deletion call issued. -/
theorem deletepost_missing_id_not_found (svc : Nat → Except String String) (st : Store)
    (isAdmin : Bool) (callerId paramUserId postId : Nat)
    (hauth : (!isAdmin && !(callerId == paramUserId)) = false)
    (hmiss : findPost st postId = none) :
    (deletepost svc st isAdmin callerId paramUserId postId).resp = ⟨404, "Post not found"⟩ ∧
    (deletepost svc st isAdmin callerId paramUserId postId).resp.status ≠ 200 ∧
    (deletepost svc st isAdmin callerId paramUserId postId).store = st ∧
    (deletepost svc st isAdmin callerId paramUserId postId).assetTraces = [] := by
  have hsteps : deletepostSteps st isAdmin callerId paramUserId postId =
      (⟨404, "Post not found"⟩, []) := by
    simp [deletepostSteps, hauth, hmiss]
  unfold deletepost
  rw [hsteps]
  refine ⟨rfl, ?_, rfl, rfl⟩
  show (404 : Nat) ≠ 200
  decide

theorem deletepost_missing_id_not_found_witness :
    ((!true && !((0 : Nat) == 1)) = false ∧ findPost exStore 99 = none) ∧
    ((deletepost svcOk exStore true 0 1 99).resp = ⟨404, "Post not found"⟩ ∧
      (deletepost svcOk exStore true 0 1 99).resp.status ≠ 200 ∧
      (deletepost svcOk exStore true 0 1 99).store = exStore ∧
      (deletepost svcOk exStore true 0 1 99).assetTraces = []) :=
  ⟨⟨by decide, by decide⟩,
   deletepost_missing_id_not_found svcOk exStore true 0 1 99 (by decide) (by decide)⟩

/-- C6: on the success path of `deletepost` the effect order is fixed — all
comments referencing the post are deleted first, then the hosted asset (if
any) is released, and the post record is deleted last — and therefore after
running any prefix of the effect sequence (a crash part-way through), if the
post record is gone then no comment referencing it remains: the state is
always "dependents deleted, parent remains", never "parent deleted,
dependents orphaned". -/
theorem deletepost_deps_before_parent (st : Store) (isAdmin : Bool)
    (callerId paramUserId postId : Nat) (post : Post)
    (hauth : (!isAdmin && !(callerId == paramUserId)) = false)
    (hfind : findPost st postId = some post)
    (hown : (!(post.userId == paramUserId) && !isAdmin) = false) :
    (deletepostSteps st isAdmin callerId paramUserId postId).2 =
      Step.delCommentsByPost postId ::
        ((if !(post.image == "") then [Step.assetDelete post.image] else []) ++
          [Step.delPost postId]) ∧
    ∀ l, l <+: (deletepostSteps st isAdmin callerId paramUserId postId).2 →
      findPost (runSteps st l) postId = none → commentsOn (runSteps st l) postId = [] := by
  have hsteps := deletepostSteps_eq st isAdmin callerId paramUserId postId post hauth hfind hown
  have hsteps2 : (deletepostSteps st isAdmin callerId paramUserId postId).2 =
      Step.delCommentsByPost postId ::
        ((if !(post.image == "") then [Step.assetDelete post.image] else []) ++
          [Step.delPost postId]) := by rw [hsteps]
  refine ⟨hsteps2, ?_⟩
  rw [hsteps2]
  intro l hl hnone
  have hfind' : st.posts.find? (fun p => p.id == postId) = some post := hfind
  by_cases himg : (post.image == "") = true
  · rw [if_neg (by simp [himg]), List.nil_append] at hl
    rcases List.prefix_cons_iff.mp hl with rfl | ⟨t, rfl, ht⟩
    · exact absurd hnone (by simp [runSteps, findPost, hfind'])
    · rcases List.prefix_cons_iff.mp ht with rfl | ⟨t2, rfl, ht2⟩
      · exact absurd hnone (by simp [runSteps, applyStep, findPost, hfind'])
      · have h0 : t2 = [] := by simpa using ht2
        subst h0
        show (st.comments.filter (fun c => !(c.postId == postId))).filter
          (fun c => c.postId == postId) = []
        exact filter_out_filter st.comments (fun c => c.postId == postId)
  · rw [if_pos (by simp [himg]), List.singleton_append] at hl
    rcases List.prefix_cons_iff.mp hl with rfl | ⟨t, rfl, ht⟩
    · exact absurd hnone (by simp [runSteps, findPost, hfind'])
    · rcases List.prefix_cons_iff.mp ht with rfl | ⟨t2, rfl, ht2⟩
      · exact absurd hnone (by simp [runSteps, applyStep, findPost, hfind'])
      · rcases List.prefix_cons_iff.mp ht2 with rfl | ⟨t3, rfl, ht3⟩
        · exact absurd hnone (by simp [runSteps, applyStep, findPost, hfind'])
        · have h0 : t3 = [] := by simpa using ht3
          subst h0
          show (st.comments.filter (fun c => !(c.postId == postId))).filter
            (fun c => c.postId == postId) = []
          exact filter_out_filter st.comments (fun c => c.postId == postId)

theorem deletepost_deps_before_parent_witness :
    ((!true && !((0 : Nat) == 1)) = false ∧
      findPost exStore 10 = some ⟨10, 1, "hello", ""⟩ ∧
      (!((1 : Nat) == 1) && !true) = false) ∧
    ((deletepostSteps exStore true 0 1 10).2 =
      [Step.delCommentsByPost 10, Step.delPost 10] ∧
     ∀ l, l <+: (deletepostSteps exStore true 0 1 10).2 →
       findPost (runSteps exStore l) 10 = none → commentsOn (runSteps exStore l) 10 = []) :=
  ⟨⟨by decide, by decide, by decide⟩,
   deletepost_deps_before_parent exStore true 0 1 10 ⟨10, 1, "hello", ""⟩
     (by decide) (by decide) (by decide)⟩

/-- C7 counterexample: with post 10 carrying a Cloudinary-hosted image and an
asset service that throws on all three attempts, `deletepost` still responds
200 with the fixed body "The post has been deleted" — a response identical to
the one produced under an always-succeeding asset service and containing no
error marker — so the deletion response does not mark the asset outcome as
error; the error outcome exists only in the discarded return value of
`deleteFromCloudinary`. -/
theorem deletepost_response_lacks_asset_outcome :
    (deletepost svcFail exStoreImg true 0 1 10).resp = ⟨200, "The post has been deleted"⟩ ∧
    (deletepost svcFail exStoreImg true 0 1 10).assetTraces =
      [⟨.errAfterRetries "upstream failure", 3, 2⟩] ∧
    (deletepost svcFail exStoreImg true 0 1 10).resp =
      (deletepost svcOk exStoreImg true 0 1 10).resp ∧
    jsIncludes (deletepost svcFail exStoreImg true 0 1 10).resp.body "error" = false :=
  ⟨by decide, by decide, by decide, by decide⟩

/-- C7 (amended): `deleteFromCloudinary` makes at most 3 delete-by-key
attempts with a fixed one-second backoff between attempts (sleeps = attempts
minus one); on a valid Cloudinary URL any non-throwing destroy result — both
'deleted' ('ok') and 'not found' — is returned as-is after a single attempt,
and when every attempt throws it returns an error outcome to its caller
instead of throwing, with exactly 3 attempts and 2 backoff sleeps; therefore
the response and store of the owning `deletepost` do not depend on the asset
service at all, and on the success path `deletepost` completes, deleting the
post record and responding with its fixed success message, which does not
record the asset outcome. -/
theorem deleteFromCloudinary_retry_contract (svc : Nat → Except String String)
    (url? : Option String) :
    ((deleteFromCloudinary svc url?).attempts ≤ 3 ∧
      (deleteFromCloudinary svc url?).sleeps = (deleteFromCloudinary svc url?).attempts - 1) ∧
    (∀ url pid, url? = some url →
      (url == "" || !jsIncludes url "cloudinary.com") = false →
      extractPublicId url = some pid → (pid == "") = false →
      ((∀ r, svc 0 = Except.ok r →
          deleteFromCloudinary svc url? = ⟨.svcRes r, 1, 0⟩) ∧
       (∀ e₀ e₁ e₂, svc 0 = Except.error e₀ → svc 1 = Except.error e₁ →
          svc 2 = Except.error e₂ →
          deleteFromCloudinary svc url? = ⟨.errAfterRetries e₂, 3, 2⟩))) ∧
    (∀ svc₂ st isAdmin callerId paramUserId postId,
      (deletepost svc st isAdmin callerId paramUserId postId).resp =
        (deletepost svc₂ st isAdmin callerId paramUserId postId).resp ∧
      (deletepost svc st isAdmin callerId paramUserId postId).store =
        (deletepost svc₂ st isAdmin callerId paramUserId postId).store) ∧
    (∀ st isAdmin callerId paramUserId postId post,
      (!isAdmin && !(callerId == paramUserId)) = false →
      findPost st postId = some post →
      (!(post.userId == paramUserId) && !isAdmin) = false →
      (deletepost svc st isAdmin callerId paramUserId postId).resp =
        ⟨200, "The post has been deleted"⟩ ∧
      findPost (deletepost svc st isAdmin callerId paramUserId postId).store postId = none) := by
  refine ⟨⟨(deleteFromCloudinary_counts svc url?).1, (deleteFromCloudinary_counts svc url?).2⟩,
    ?_, ?_, ?_⟩
  · rintro url pid rfl hne hpid hpne
    constructor
    · intro r h0
      rw [deleteFromCloudinary_valid svc url pid hne hpid hpne,
        destroyRetry_first_ok svc r h0]
    · intro e₀ e₁ e₂ h0 h1 h2
      rw [deleteFromCloudinary_valid svc url pid hne hpid hpne,
        destroyRetry_all_errors svc e₀ e₁ e₂ h0 h1 h2]
  · intro svc₂ st isAdmin callerId paramUserId postId
    exact ⟨rfl, rfl⟩
  · intro st isAdmin callerId paramUserId postId post hauth hfind hown
    have h := deletepost_success svc st isAdmin callerId paramUserId postId post hauth hfind hown
    exact ⟨h.1, h.2.2.2⟩

theorem deleteFromCloudinary_retry_contract_witness :
    (svcFail 0 = Except.error "upstream failure" ∧
      extractPublicId exImageUrl = some "blog/pic" ∧
      findPost exStoreImg 10 = some ⟨10, 1, "hello", exImageUrl⟩) ∧
    deleteFromCloudinary svcFail (some exImageUrl) =
      ⟨.errAfterRetries "upstream failure", 3, 2⟩ ∧
    ((deletepost svcFail exStoreImg true 0 1 10).resp = ⟨200, "The post has been deleted"⟩ ∧
      findPost (deletepost svcFail exStoreImg true 0 1 10).store 10 = none) :=
  ⟨⟨rfl, by decide, by decide⟩,
   ((deleteFromCloudinary_retry_contract svcFail (some exImageUrl)).2.1 exImageUrl "blog/pic"
      rfl (by decide) (by decide) (by decide)).2 "upstream failure" "upstream failure"
      "upstream failure" rfl rfl rfl,
   (deleteFromCloudinary_retry_contract svcFail (some exImageUrl)).2.2.2 exStoreImg true 0 1 10
      ⟨10, 1, "hello", exImageUrl⟩ (by decide) (by decide) (by decide)⟩

/-- C10: `deleteFromCloudinary` returns the skipped outcome, without issuing
any delete-by-key call, when the URL is null, empty, or does not contain
"cloudinary.com"; and when a non-empty Cloudinary URL has no extractable
object key because its parts contain no "upload" segment, `extractPublicId`
returns none and `deleteFromCloudinary` returns the error outcome, again
without issuing any delete call. -/
theorem deleteFromCloudinary_skip_and_invalid (svc : Nat → Except String String) :
    deleteFromCloudinary svc none = ⟨.skipped, 0, 0⟩ ∧
    (∀ url, (url == "" || !jsIncludes url "cloudinary.com") = true →
      deleteFromCloudinary svc (some url) = ⟨.skipped, 0, 0⟩) ∧
    (∀ url, (url == "") = false → jsIncludes url "cloudinary.com" = true →
      idxOfUpload (splitSlash url.toList) = none →
      extractPublicId url = none ∧
      deleteFromCloudinary svc (some url) = ⟨.invalidUrl, 0, 0⟩) := by
  refine ⟨rfl, ?_, ?_⟩
  · intro url h
    simp [deleteFromCloudinary, h]
  · intro url hne hcl hidx
    have hidx' : idxOfUpload (splitSlash url.data) = none := hidx
    have hpid : extractPublicId url = none := by
      simp [extractPublicId, hne, hcl, hidx']
    refine ⟨hpid, ?_⟩
    simp [deleteFromCloudinary, hne, hcl, hpid]

theorem deleteFromCloudinary_skip_and_invalid_witness :
    deleteFromCloudinary svcFail (some "https://example.com/x.jpg") = ⟨.skipped, 0, 0⟩ ∧
    (extractPublicId "https://res.cloudinary.com/demo/image/x.jpg" = none ∧
      deleteFromCloudinary svcFail (some "https://res.cloudinary.com/demo/image/x.jpg") =
        ⟨.invalidUrl, 0, 0⟩) :=
  ⟨(deleteFromCloudinary_skip_and_invalid svcFail).2.1 "https://example.com/x.jpg" (by decide),
   (deleteFromCloudinary_skip_and_invalid svcFail).2.2 "https://res.cloudinary.com/demo/image/x.jpg"
     (by decide) (by decide) (by decide)⟩
